import Mathlib

/-!
Verification of the Meera hive-mind agent pipeline
(`main.py`, `db.py`, `src/memory/retrieval.py`, `src/agents/vishnu.py`,
`src/graph/workflow.py`) against its natural-language specification.

External capabilities (embedding, generation, stores) are modelled as
`Except String`-valued parameters: `.ok` is a normal return, `.error` is a
raised exception, mirroring the Python `try`/`except` structure of the code.
-/

namespace MeeraHive
/-- Modelled from the spec (§3, MemoryEntry): `src/memory/nodes.py` is not among
the source files.  Retrieval code inspects only `memory_id`; the remaining
fields are carried opaquely. -/
structure MemoryNode where
  memory_id : String
  text : String
  created_at : Nat
deriving DecidableEq

/-- The merge-and-truncate block shared by `retrieve_personal_memories`
(`src/memory/retrieval.py` lines 60-79) and `retrieve_hive_mind_memories`
(lines 118-136): `existing_ids` is the set of ids of the similarity results
`S`, computed once before the loop; each recency entry whose id is not in
that set is appended to `S`; the list is then truncated to `limit`. -/
def merge_and_truncate (S R : List MemoryNode) (limit : Nat) : List MemoryNode :=
  (R.foldl
      (fun ms mem =>
        if mem.memory_id ∈ S.map MemoryNode.memory_id then ms else ms ++ [mem]) S).take limit

/-- The external capabilities one memory partition exposes to
`MemoryRetriever` (`src/memory/retrieval.py`): `embed` is
`self.embeddings.embed_query(query)`, `search` is
`self.storage.search_memories(query_embedding, ..., limit)` and `recent` is
`self.storage.get_recent_memories(..., limit)`.  An `.error` value models the
call raising. -/
structure RetrievalCaps (V : Type) where
  embed : Except String V
  search : V → Nat → Except String (List MemoryNode)
  recent : Nat → Except String (List MemoryNode)

/-- The `try` block of `retrieve_personal_memories` (lines 48-79) and of
`retrieve_hive_mind_memories` (lines 106-136): embed the query, run the
vector search, and if it returned fewer than `limit` entries fetch
`limit - count` recent entries and merge them in; finally truncate. -/
def retrieve_try {V : Type} (rc : RetrievalCaps V) (limit : Nat) :
    Except String (List MemoryNode) :=
  match rc.embed with
  | .error e => .error e
  | .ok v =>
    match rc.search v limit with
    | .error e => .error e
    | .ok memories =>
      if memories.length < limit then
        match rc.recent (limit - memories.length) with
        | .error e => .error e
        | .ok recent => .ok (merge_and_truncate memories recent limit)
      else
        .ok (memories.take limit)

/-- `retrieve_personal_memories` / `retrieve_hive_mind_memories`
(`src/memory/retrieval.py` lines 38-92 and 97-148): on any exception in the
`try` block, the `except` branch returns
`self.storage.get_recent_memories(..., limit)` — a call that is itself
unguarded. -/
def retrieve_memories {V : Type} (rc : RetrievalCaps V) (limit : Nat) :
    Except String (List MemoryNode) :=
  match retrieve_try rc limit with
  | .ok ms => .ok ms
  | .error _ => rc.recent limit

/-- A row of the `hive_knowledge` table, with the columns selected by the two
search paths (`db.py` and `src/memory/retrieval.py`).  The external trigram
similarity score and the match predicates are passed in as parameters. -/
structure KnowledgeRow where
  id : String
  user_id : Option String
  title : String
  content : String
  metadata : List (String × Option String)
  created_at : Nat
deriving DecidableEq

/-- A result row of `db.py`'s `search_hive_knowledge`: the `HiveKnowledgeRow`
dataclass additionally carries the query-time `score`. -/
structure HiveKnowledgeRow where
  id : String
  user_id : Option String
  title : String
  content : String
  metadata : List (String × Option String)
  created_at : Nat
  score : Int
deriving DecidableEq

/-- Python's `str.strip()`: the string with leading and trailing whitespace
removed. -/
def pyStrip (s : String) : String :=
  ⟨((s.data.dropWhile Char.isWhitespace).reverse.dropWhile Char.isWhitespace).reverse⟩

/-- The SQL `order by score desc, created_at desc` of `db.py` as a Boolean
comparison: `a` may precede `b` when `a` has the larger score, or equal
scores and `a` is at least as recent. -/
def knowledge_le (a b : HiveKnowledgeRow) : Bool :=
  b.score < a.score || (a.score == b.score && b.created_at ≤ a.created_at)

/-- `search_hive_knowledge` of `db.py` (lines 34-81): a blank query returns
`[]`; otherwise the rows whose `content` fuzzy-matches the query and that
pass the scope test `(%(uid)s is null or user_id = %(uid)s)` are scored with
`similarity(content, query)`, ordered by `score desc, created_at desc`, and
limited.  Note the scope test compares against the *parameter*: with a
non-null `user_id` it keeps only that user's rows and drops global
(`user_id is null`) rows. -/
def search_hive_knowledge_db (table : List KnowledgeRow)
    (fuzzy : String → String → Bool) (sim : String → String → Int)
    (query : String) (user_id : Option String) (limit : Nat) :
    List HiveKnowledgeRow :=
  if pyStrip query = "" then []
  else
    (((table.filter
          (fun r => fuzzy r.content query && (user_id == none || r.user_id == user_id))).map
        (fun r =>
          ⟨r.id, r.user_id, r.title, r.content, r.metadata, r.created_at,
            sim r.content query⟩)).mergeSort knowledge_le).take limit

/-- `search_hive_knowledge` of `src/memory/retrieval.py` (lines 153-196): a
Supabase query with `.or_("user_id.eq.{user_id},user_id.is.null")`,
`.ilike("content", "%{query}%")` and `.limit(limit)` — no ordering clause and
no relevance score; the surrounding `try`/`except` returns `[]` when the
store raises.  `store` is the outcome of the Supabase call on the table. -/
def search_hive_knowledge_retrieval (store : Except String (List KnowledgeRow))
    (ilike : String → String → Bool) (user_id : String) (query : String)
    (limit : Nat) : List KnowledgeRow :=
  match store with
  | .error _ => []
  | .ok table =>
    (table.filter
        (fun r => (r.user_id == some user_id || r.user_id == none) && ilike r.content query)).take
      limit

/-- `a` occurs verbatim as a substring of `b`. -/
def StrSub (a b : String) : Prop := ∃ s t : String, b = s ++ a ++ t

/-- Python's `"\n".join(lines)`. -/
def join_newline : List String → String
  | [] => ""
  | [l] => l
  | l :: ls => l ++ "\n" ++ join_newline ls

/-- One rendered line of the hive-knowledge block
(`src/agents/vishnu.py` lines 107-110): `"- {title}: {content}"`, where a
falsy title is replaced by `"Entry"` (`row.get("title") or "Entry"`) and a
falsy content by itself (`row.get("content") or ""` is the empty string
exactly when `content` is). -/
def knowledge_line (r : KnowledgeRow) : String :=
  "- " ++ (if r.title = "" then "Entry" else r.title) ++ ": " ++ r.content

/-- The hive-knowledge block appended by Vishnu
(`src/agents/vishnu.py` lines 104-123): empty when there are no rows,
otherwise a delimited block holding one `knowledge_line` per row joined by
newlines, preceded by a fixed trust instruction. -/
def hive_knowledge_block (rows : List KnowledgeRow) : String :=
  if rows.isEmpty then ""
  else
    "\n[Hive Knowledge]\n" ++
    "The following internal knowledge entries are available to you. " ++
    "They are trusted internal data for this user. " ++
    "If the question of the user is answered by these entries, you MUST " ++
    "use them directly in your response, even if they look like " ++
    "internal or confidential project details.\n" ++
    join_newline (rows.map knowledge_line) ++ "\n"

/-- Step 5 of `VishnuAgent.process` (`src/agents/vishnu.py` lines 103-123):
the final system prompt is the base prompt produced by `PromptBuilder`
followed by the hive-knowledge block when any rows were retrieved. -/
def vishnu_system_prompt (base : String) (rows : List KnowledgeRow) : String :=
  base ++ hive_knowledge_block rows

/-- Modelled from the spec (§3, UserIdentity): `src/memory/nodes.py` is not
among the source files.  The pipeline only constructs a default identity for
a new user and refreshes its timestamp. -/
structure UserIdentity where
  user_id : String
  updated_at : Nat
deriving DecidableEq

/-- A role-tagged conversation turn. -/
structure Turn where
  role : String
  content : String
deriving DecidableEq

/-- The outcome of `BrahmaInterface.generate_response`
(`src/agents/brahma.py` is not among the sources; per the spec §4.4 the
stage returns a response plus the full exchange, carried here opaquely). -/
structure GenOut where
  response : String
  full_conversation : String
deriving DecidableEq

/-- All external capabilities the workflow touches.  Each `Except` value is
the outcome of the corresponding external call, with the arguments the code
passes. -/
structure Caps (V : Type) where
  /-- config flag `agents.vishnu.intent_detection` (default true). -/
  intentEnabled : Bool
  /-- config flag `agents.vishnu.identity_update` (default true). -/
  identityUpdateEnabled : Bool
  /-- outcome of `self.intent_llm.invoke(prompt)`, reduced to its text content. -/
  intentLLM : Except String String
  /-- outcome of `self.storage.get_user_identity(user_id)`. -/
  identityGet : Except String (Option UserIdentity)
  /-- capabilities of the personal-memory partition. -/
  personal : RetrievalCaps V
  /-- capabilities of the shared (hive-mind) partition. -/
  hive : RetrievalCaps V
  /-- `settings.max_personal_memories` (default 3). -/
  maxPersonal : Nat
  /-- `settings.max_hive_mind_memories` (default 3). -/
  maxHive : Nat
  /-- outcome of the Supabase `hive_knowledge` query in `search_hive_knowledge`. -/
  knowledgeStore : Except String (List KnowledgeRow)
  /-- the Supabase `ilike` content matcher. -/
  ilike : String → String → Bool
  /-- Modelled from the spec (§4.2): `PromptBuilder.build_system_prompt`
  (`src/prompts/templates.py` is not among the sources) is a pure function
  of identity, memories and the user query, so it is total here. -/
  basePrompt : UserIdentity → List MemoryNode → List MemoryNode → String → String
  /-- outcome of `BrahmaInterface.generate_response(system_prompt,
  user_message, conversation_history)`. -/
  generate : String → String → List Turn → Except String GenOut
  /-- outcome of `ShivaAgent.process(user_id, full_conversation,
  user_identity)` (`src/agents/shiva.py` is not among the sources; per the
  spec §4.5 it derives and upserts memory entries, returning their ids, and
  may raise). -/
  capture : String → String → Option UserIdentity → Except String (List String)

/-- `VishnuAgent._detect_intent` (`src/agents/vishnu.py` lines 147-175),
guarded by `if self.intent_llm` at the call site (line 72): a disabled
detector or a raising LLM call degrades to `none`; otherwise the stripped
reply content is the intent. -/
def detect_intent {V : Type} (c : Caps V) : Option String :=
  if c.intentEnabled then
    match c.intentLLM with
    | .ok s => some (pyStrip s)
    | .error _ => none
  else none

/-- `VishnuAgent._get_or_create_identity` (lines 180-188): an absent record
yields a fresh default identity; a raising identity store propagates. -/
def get_or_create_identity {V : Type} (c : Caps V) (user_id : String) :
    Except String UserIdentity :=
  match c.identityGet with
  | .error e => .error e
  | .ok (some ident) => .ok ident
  | .ok none => .ok ⟨user_id, 0⟩

/-- `VishnuAgent._update_identity` (lines 190-204): refresh `updated_at`
when the config enables identity updates. -/
def update_identity {V : Type} (c : Caps V) (ident : UserIdentity) (now : Nat) :
    UserIdentity :=
  if c.identityUpdateEnabled then { ident with updated_at := now } else ident

/-- The dictionary returned by `VishnuAgent.process` (lines 134-142). -/
structure VishnuResult where
  system_prompt : String
  user_identity : UserIdentity
  personal_memories : List MemoryNode
  hive_mind_memories : List MemoryNode
  intent : Option String
  user_message : String
  hive_knowledge : List KnowledgeRow
deriving DecidableEq

/-- `VishnuAgent.process` (`src/agents/vishnu.py` lines 51-142): intent,
identity get-or-create and update, the three retrievals — the knowledge
search absorbing its own failures — and prompt assembly.  An exception in
identity resolution or in either memory retrieval propagates. -/
def vishnu_process {V : Type} (c : Caps V) (user_id user_message : String)
    (now : Nat) : Except String VishnuResult :=
  let intent := detect_intent c
  match get_or_create_identity c user_id with
  | .error e => .error e
  | .ok ident0 =>
    let ident := update_identity c ident0 now
    match retrieve_memories c.personal c.maxPersonal with
    | .error e => .error e
    | .ok personal =>
      match retrieve_memories c.hive c.maxHive with
      | .error e => .error e
      | .ok hive =>
        let rows :=
          search_hive_knowledge_retrieval c.knowledgeStore c.ilike user_id user_message 5
        let base := c.basePrompt ident personal hive user_message
        .ok ⟨vishnu_system_prompt base rows, ident, personal, hive, intent,
          user_message, rows⟩

/-- `AgentState` (`src/graph/workflow.py` lines 16-39).  The
`conversation_history` channel is modelled as a plain list threaded through
the nodes, the way the node bodies themselves read and append to it. -/
structure AgentState where
  user_id : String
  user_message : String
  hive_context : String
  system_prompt : String
  user_identity : Option UserIdentity
  personal_memories : List MemoryNode
  hive_mind_memories : List MemoryNode
  intent : Option String
  response : String
  full_conversation : String
  memory_ids : List String
  conversation_history : List Turn

/-- `_vishnu_node` (lines 79-117): copy the Vishnu outputs onto the state;
any exception is logged and re-raised. -/
def vishnu_node {V : Type} (c : Caps V) (now : Nat) (s : AgentState) :
    Except String AgentState :=
  match vishnu_process c s.user_id s.user_message now with
  | .error e => .error e
  | .ok r =>
    .ok { s with
      system_prompt := r.system_prompt
      user_identity := some r.user_identity
      personal_memories := r.personal_memories
      hive_mind_memories := r.hive_mind_memories
      intent := r.intent }

/-- The prompt-extension step of `_brahma_node` (lines 129-140): a non-empty
`hive_context` is appended to the system prompt under its own labelled
section. -/
def brahma_prompt (system_prompt hive_context : String) : String :=
  if hive_context ≠ "" then
    system_prompt ++
      "\n\n[Hive Mind DB context - prefer this if relevant or if it " ++
      "conflicts with generic knowledge:]\n" ++ hive_context
  else system_prompt

/-- `_brahma_node` (lines 119-170): call the generation capability with the
extended prompt — re-raising on failure — and only then append the user and
assistant turns to the conversation history. -/
def brahma_node {V : Type} (c : Caps V) (s : AgentState) :
    Except String AgentState :=
  match c.generate (brahma_prompt s.system_prompt s.hive_context) s.user_message
      s.conversation_history with
  | .error e => .error e
  | .ok g =>
    .ok { s with
      response := g.response
      full_conversation := g.full_conversation
      conversation_history :=
        s.conversation_history ++ [⟨"user", s.user_message⟩, ⟨"assistant", g.response⟩] }

/-- `_shiva_node` (lines 172-202): the capture call is fully guarded — on any
exception the node logs, sets `memory_ids := []` and returns the state
unchanged otherwise. -/
def shiva_node {V : Type} (c : Caps V) (s : AgentState) : AgentState :=
  match c.capture s.user_id s.full_conversation s.user_identity with
  | .ok ids => { s with memory_ids := ids }
  | .error _ => { s with memory_ids := [] }

/-- The compiled graph `vishnu → brahma → shiva` (lines 61-77). -/
def graph_invoke {V : Type} (c : Caps V) (now : Nat) (init : AgentState) :
    Except String AgentState :=
  match vishnu_node c now init with
  | .error e => .error e
  | .ok s1 =>
    match brahma_node c s1 with
    | .error e => .error e
    | .ok s2 => .ok (shiva_node c s2)

/-- The dictionary `MeeraWorkflow.invoke` returns (lines 252-258). -/
structure InvokeResult where
  response : String
  user_id : String
  intent : Option String
  memory_ids : List String
  conversation_history : List Turn
deriving DecidableEq

/-- The initial `AgentState` built by `invoke` (lines 228-241). -/
def initial_state (user_id user_message hive_context : String)
    (conversation_history : List Turn) : AgentState :=
  { user_id := user_id, user_message := user_message
    hive_context := hive_context, system_prompt := ""
    user_identity := none, personal_memories := []
    hive_mind_memories := [], intent := some "", response := ""
    full_conversation := "", memory_ids := []
    conversation_history := conversation_history }

/-- `MeeraWorkflow.invoke` (`src/graph/workflow.py` lines 204-262): build the
initial state, run the graph, and project the final state onto the result
dictionary; any exception is logged and re-raised. -/
def invoke {V : Type} (c : Caps V) (user_id user_message : String)
    (conversation_history : List Turn) (hive_context : String) (now : Nat) :
    Except String InvokeResult :=
  match graph_invoke c now
      (initial_state user_id user_message hive_context conversation_history) with
  | .error e => .error e
  | .ok fs => .ok ⟨fs.response, user_id, fs.intent, fs.memory_ids, fs.conversation_history⟩

/-- Concrete capabilities for instantiating the pipeline theorems: the
identity store holds a record for `"u1"`, both memory partitions are healthy
but empty, the knowledge table is empty, generation replies `"hello"`, and
capture returns one memory id.  The intent LLM raises (absorbed to `none`). -/
def capsBase : Caps Unit :=
  { intentEnabled := true
    identityUpdateEnabled := true
    intentLLM := .error "quota exceeded"
    identityGet := .ok (some ⟨"u1", 1⟩)
    personal := ⟨.ok (), fun _ _ => .ok [], fun _ => .ok []⟩
    hive := ⟨.ok (), fun _ _ => .ok [], fun _ => .ok []⟩
    maxPersonal := 3
    maxHive := 3
    knowledgeStore := .ok []
    ilike := fun _ _ => true
    basePrompt := fun _ _ _ _ => "BASE"
    generate := fun _ _ _ => .ok ⟨"hello", "fc"⟩
    capture := fun _ _ _ => .ok ["m1"] }

/-- The context-stage result `capsBase` produces for user `"u1"`, message
`"hi"`, timestamp `2`. -/
def rBase : VishnuResult :=
  ⟨vishnu_system_prompt "BASE" [], ⟨"u1", 2⟩, [], [], none, "hi", []⟩

/-- `capsBase` with the personal-memory store down on both paths. -/
def capsRetrFail : Caps Unit :=
  { capsBase with
    personal :=
      ⟨.error "embedding unavailable", fun _ _ => .ok [],
        fun _ => .error "memory store unavailable"⟩ }

/-- `capsBase` with the identity store down. -/
def capsIdFail : Caps Unit := { capsBase with identityGet := .error "identity store down" }

/-- `capsBase` with the generation capability down. -/
def capsGenFail : Caps Unit :=
  { capsBase with generate := fun _ _ _ => .error "generation unavailable" }

/-- `capsBase` with the capture stage raising. -/
def capsCapFail : Caps Unit :=
  { capsBase with capture := fun _ _ _ => .error "memory write failed" }

/-- The row `save_interaction` inserts into `meera_interactions`
(`src/db/supabase_client.py` lines 21-51). -/
structure Interaction where
  user_id : String
  message : String
  response : String
  intent : Option String
  memory_ids : List String
deriving DecidableEq

/-- One numbered line of `_format_hive_context` (`main.py` lines 55-59):
`"{i}. [title: {title}] {preview}"`, the preview truncated to 400 characters
with an ellipsis. -/
def format_hive_row (i : Nat) (r : HiveKnowledgeRow) : String :=
  toString i ++ ". [title: " ++ r.title ++ "] " ++
    (if 400 < r.content.length then r.content.take 400 ++ "..." else r.content)

/-- `_format_hive_context` (`main.py` lines 49-60): empty for no rows,
otherwise a header line followed by the numbered previews. -/
def format_hive_context (rows : List HiveKnowledgeRow) : String :=
  if rows.isEmpty then ""
  else
    join_newline ("Relevant knowledge from the Hive Mind:" ::
      (List.enumFrom 1 rows).map (fun p => format_hive_row p.1 p.2))

/-- The `hive_knowledge` row created by `run_meera` step 4 (`main.py` lines
92-104 with `insert_hive_knowledge`, `db.py` lines 84-113): title is the
user message truncated to 120 characters, content is the reply, metadata
records the source and intent; the database assigns `id` and `created_at`. -/
def meera_reply_row (id uid msg : String) (res : InvokeResult) (now : Nat) :
    KnowledgeRow :=
  ⟨id, some uid, msg.take 120, res.response,
    [("source", some "meera_reply"), ("intent", res.intent)], now⟩

/-- `run_meera` (`main.py` lines 63-108): search the knowledge table for
context (unguarded), run the workflow (unguarded), then — each in its own
`try`/`except` whose failure is only logged — persist the interaction and,
when the reply is truthy and non-blank after stripping, insert it back into
the knowledge table.  The model returns the workflow result together with
the final knowledge table and interaction log, making both stores'
post-states observable. -/
def run_meera (table : List KnowledgeRow) (fuzzy : String → String → Bool)
    (sim : String → String → Int)
    (invokeF : String → Except String InvokeResult)
    (saveOutcome : Except String Unit) (insertOutcome : Except String String)
    (ilog : List Interaction) (uid msg : String) (now : Nat) :
    Except String (InvokeResult × List KnowledgeRow × List Interaction) :=
  let hive_rows := search_hive_knowledge_db table fuzzy sim msg (some uid) 5
  match invokeF (format_hive_context hive_rows) with
  | .error e => .error e
  | .ok result =>
    let ilog2 :=
      match saveOutcome with
      | .ok _ => ilog ++ [⟨uid, msg, result.response, result.intent, result.memory_ids⟩]
      | .error _ => ilog
    let table2 :=
      if result.response ≠ "" ∧ pyStrip result.response ≠ "" then
        match insertOutcome with
        | .ok id => table ++ [meera_reply_row id uid msg result now]
        | .error _ => table
      else table
    .ok (result, table2, ilog2)

theorem foldl_append_eq_filter (existing : List String) :
    ∀ (R S : List MemoryNode),
      R.foldl (fun ms mem => if mem.memory_id ∈ existing then ms else ms ++ [mem]) S
        = S ++ R.filter (fun mem => mem.memory_id ∉ existing)
  | [], S => by simp
  | mem :: R, S => by
    by_cases h : mem.memory_id ∈ existing
    · simpa [List.foldl, h] using foldl_append_eq_filter existing R S
    · simpa [List.foldl, h] using foldl_append_eq_filter existing R (S ++ [mem])

theorem merge_and_truncate_eq (S R : List MemoryNode) (limit : Nat) :
    merge_and_truncate S R limit
      = (S ++ R.filter (fun mem => mem.memory_id ∉ S.map MemoryNode.memory_id)).take limit := by
  unfold merge_and_truncate
  rw [foldl_append_eq_filter]

theorem merge_ids_nodup (S R : List MemoryNode)
    (hS : (S.map MemoryNode.memory_id).Nodup)
    (hR : (R.map MemoryNode.memory_id).Nodup) :
    ((S ++ R.filter (fun mem => mem.memory_id ∉ S.map MemoryNode.memory_id)).map
        MemoryNode.memory_id).Nodup := by
  rw [List.map_append, List.nodup_append]
  refine ⟨hS, ?_, ?_⟩
  · exact ((R.filter_sublist).map MemoryNode.memory_id).nodup hR
  · intro x hxS hxF
    rcases List.mem_map.mp hxF with ⟨mem, hmemF, hid⟩
    rcases List.mem_filter.mp hmemF with ⟨-, hpred⟩
    exact (of_decide_eq_true hpred) (hid ▸ hxS)

/-- C1.  The merged retrieval output is the similarity results `S` in order,
then the recency results `R` in order minus entries whose `memory_id` already
occurs in `S`, truncated to `limit`; and — provided the ids within `S` are
pairwise distinct and the ids within `R` are pairwise distinct — no
`memory_id` occurs twice in the output.  (The distinctness hypotheses are
necessary: the code removes only duplicates of `S`-ids, see
`merge_dedup_cex`.) -/
theorem merge_dedup (S R : List MemoryNode) (limit : Nat)
    (hS : (S.map MemoryNode.memory_id).Nodup)
    (hR : (R.map MemoryNode.memory_id).Nodup) :
    merge_and_truncate S R limit
        = (S ++ R.filter (fun mem => mem.memory_id ∉ S.map MemoryNode.memory_id)).take limit
      ∧ ((merge_and_truncate S R limit).map MemoryNode.memory_id).Nodup := by
  refine ⟨merge_and_truncate_eq S R limit, ?_⟩
  rw [merge_and_truncate_eq]
  exact ((List.take_sublist _ _).map MemoryNode.memory_id).nodup (merge_ids_nodup S R hS hR)

/-- C1, counterexample to the unconditional claim: with an empty similarity
result and a recency result containing the same `memory_id` twice, the merged
output repeats that id — the loop checks ids only against the similarity set,
which is computed once before the loop. -/
theorem merge_dedup_cex :
    ¬ (((merge_and_truncate [] [⟨"m0", "t", 0⟩, ⟨"m0", "t", 0⟩] 2).map
          MemoryNode.memory_id).Nodup) := by
  decide

/-- C1, witness for `merge_dedup` at a concrete input. -/
theorem merge_dedup_witness :
    merge_and_truncate [⟨"a", "ta", 1⟩] [⟨"a", "ta", 1⟩, ⟨"b", "tb", 2⟩] 2
        = [⟨"a", "ta", 1⟩, ⟨"b", "tb", 2⟩]
      ∧ ((merge_and_truncate [⟨"a", "ta", 1⟩] [⟨"a", "ta", 1⟩, ⟨"b", "tb", 2⟩] 2).map
          MemoryNode.memory_id).Nodup := by
  have h := merge_dedup [⟨"a", "ta", 1⟩] [⟨"a", "ta", 1⟩, ⟨"b", "tb", 2⟩] 2
    (by decide) (by decide)
  exact ⟨by rw [h.1]; decide, h.2⟩

theorem retrieve_try_length_le {V : Type} (rc : RetrievalCaps V) (limit : Nat)
    (L : List MemoryNode) (h : retrieve_try rc limit = .ok L) : L.length ≤ limit := by
  unfold retrieve_try at h
  cases hemb : rc.embed with
  | error e => rw [hemb] at h; exact absurd h (by simp)
  | ok v =>
    rw [hemb] at h
    dsimp only at h
    cases hsearch : rc.search v limit with
    | error e => rw [hsearch] at h; exact absurd h (by simp)
    | ok S =>
      rw [hsearch] at h
      dsimp only at h
      by_cases hlt : S.length < limit
      · rw [if_pos hlt] at h
        cases hrec : rc.recent (limit - S.length) with
        | error e => rw [hrec] at h; exact absurd h (by simp)
        | ok R =>
          rw [hrec] at h
          injection h with h
          subst h
          simp [merge_and_truncate_eq]
      · rw [if_neg hlt] at h
        injection h with h
        subst h
        simp

/-- C3.  Provided the recency capability honours its `limit` argument (it
returns at most the number of entries requested), every successful retrieval
returns at most `limit` entries — on the normal path because the merged list
is truncated, on the fallback path because the recency call is asked for
exactly `limit` entries. -/
theorem retrieve_length_le {V : Type} (rc : RetrievalCaps V) (limit : Nat)
    (hrec : ∀ k L, rc.recent k = .ok L → L.length ≤ k) :
    ∀ L, retrieve_memories rc limit = .ok L → L.length ≤ limit := by
  intro L h
  unfold retrieve_memories at h
  cases htry : retrieve_try rc limit with
  | ok ms =>
    rw [htry] at h
    injection h with h
    exact h ▸ retrieve_try_length_le rc limit ms htry
  | error e =>
    rw [htry] at h
    exact hrec _ _ h

/-- C3, witness for `retrieve_length_le` at a concrete input. -/
theorem retrieve_length_le_witness :
    ([(⟨"n1", "t1", 1⟩ : MemoryNode)].length ≤ 2) :=
  retrieve_length_le
    (⟨.ok (), fun _ _ => .ok [⟨"n1", "t1", 1⟩], fun _ => .ok []⟩ : RetrievalCaps Unit) 2
    (fun k L h => by injection h with h; simp [← h])
    [⟨"n1", "t1", 1⟩] rfl

/-- C2, amended.  If the embedding capability raises, the component returns
exactly the outcome of the recency fallback `recent limit`: entries sourced
entirely from recency when that call succeeds, and — contrary to the original
claim — the recency exception when it raises too (the fallback call in the
`except` branch is unguarded). -/
theorem retrieve_embed_failure {V : Type} (rc : RetrievalCaps V) (limit : Nat)
    (e : String) (h : rc.embed = .error e) :
    retrieve_memories rc limit = rc.recent limit := by
  unfold retrieve_memories retrieve_try
  rw [h]

/-- C2, witness for `retrieve_embed_failure` at a concrete input. -/
theorem retrieve_embed_failure_witness :
    retrieve_memories
        (⟨.error "embedding unavailable", fun _ _ => .ok [],
          fun _ => .ok [⟨"r1", "t", 7⟩]⟩ : RetrievalCaps Unit) 3
      = .ok [⟨"r1", "t", 7⟩] :=
  retrieve_embed_failure
    (⟨.error "embedding unavailable", fun _ _ => .ok [],
      fun _ => .ok [⟨"r1", "t", 7⟩]⟩ : RetrievalCaps Unit) 3 "embedding unavailable" rfl

/-- C2, counterexample: when the embedding capability raises and the recency
fallback also raises, `retrieve_memories` propagates the exception instead of
returning an empty sequence. -/
theorem retrieve_double_failure_cex :
    retrieve_memories
        (⟨.error "embedding unavailable", fun _ _ => .ok [],
          fun _ => .error "store unavailable"⟩ : RetrievalCaps Unit) 3
      = .error "store unavailable"
    ∧ retrieve_memories
        (⟨.error "embedding unavailable", fun _ _ => .ok [],
          fun _ => .error "store unavailable"⟩ : RetrievalCaps Unit) 3
      ≠ .ok [] :=
  ⟨rfl, fun h => Except.noConfusion h⟩

theorem knowledge_le_trans (a b c : HiveKnowledgeRow) :
    knowledge_le a b → knowledge_le b c → knowledge_le a c := by
  simp only [knowledge_le, Bool.or_eq_true, Bool.and_eq_true, decide_eq_true_eq, beq_iff_eq]
  omega

theorem knowledge_le_total (a b : HiveKnowledgeRow) :
    knowledge_le a b || knowledge_le b a := by
  simp only [knowledge_le, Bool.or_eq_true, Bool.and_eq_true, decide_eq_true_eq, beq_iff_eq]
  omega

/-- C4, amended.  The Supabase-based knowledge search (the one the pipeline's
context stage uses) is scoped as the claim states: it never returns an entry
owned by a different non-null user, and every matching entry owned by `u` or
global is returned whenever the matches fit within `limit`.  The pg-based
search in `db.py`, however, scopes with `(%(uid)s is null or user_id =
%(uid)s)`: with a non-null `u` every returned entry has `user_id = u`, so
matching global entries are *not* returned there (see
`knowledge_scoping_cex`). -/
theorem knowledge_scoping (table : List KnowledgeRow)
    (ilike fuzzy : String → String → Bool) (sim : String → String → Int)
    (u query : String) (limit : Nat) :
    (∀ r ∈ search_hive_knowledge_retrieval (.ok table) ilike u query limit,
        r.user_id = some u ∨ r.user_id = none)
    ∧ ((table.filter
            (fun r => (r.user_id == some u || r.user_id == none) && ilike r.content query)).length
          ≤ limit →
        ∀ r ∈ table, (r.user_id = some u ∨ r.user_id = none) → ilike r.content query →
          r ∈ search_hive_knowledge_retrieval (.ok table) ilike u query limit)
    ∧ (∀ r ∈ search_hive_knowledge_db table fuzzy sim query (some u) limit,
        r.user_id = some u) := by
  refine ⟨?_, ?_, ?_⟩
  · intro r hr
    have hr' := List.mem_of_mem_take hr
    have := (List.mem_filter.mp hr').2
    simp only [Bool.and_eq_true, Bool.or_eq_true, beq_iff_eq] at this
    exact this.1
  · intro hlen r hr hscope hmatch
    show r ∈ (table.filter
        (fun r => (r.user_id == some u || r.user_id == none) && ilike r.content query)).take limit
    rw [List.take_of_length_le hlen]
    refine List.mem_filter.mpr ⟨hr, ?_⟩
    simp only [Bool.and_eq_true, Bool.or_eq_true, beq_iff_eq]
    exact ⟨hscope, hmatch⟩
  · intro r hr
    unfold search_hive_knowledge_db at hr
    by_cases hq : pyStrip query = ""
    · rw [if_pos hq] at hr
      exact absurd hr (List.not_mem_nil r)
    · rw [if_neg hq] at hr
      have hr' := List.mem_mergeSort.mp (List.mem_of_mem_take hr)
      rcases List.mem_map.mp hr' with ⟨r0, hr0, hmap⟩
      have hpred := (List.mem_filter.mp hr0).2
      simp only [Bool.and_eq_true, Bool.or_eq_true, beq_iff_eq] at hpred
      rcases hpred.2 with h | h
      · exact absurd h (by simp)
      · rw [← hmap]
        exact h

/-- C4, counterexample: `db.py`'s `search_hive_knowledge`, queried with the
non-null user id `"u1"`, returns nothing from a table holding one *matching
global* entry (`user_id` null), although the claim says matching global
entries are returned. -/
theorem knowledge_scoping_cex :
    search_hive_knowledge_db [⟨"1", none, "Policy A", "refunds allowed", [], 5⟩]
        (fun _ _ => true) (fun _ _ => 1) "refund" (some "u1") 5 = [] := by
  simp +decide [search_hive_knowledge_db]

/-- C4, witness for `knowledge_scoping` at a concrete input: with a global
entry and an entry owned by `"u1"` both matching, the Supabase-based search
returns both, and they satisfy the scope bound. -/
theorem knowledge_scoping_witness :
    (⟨"1", none, "Policy A", "refunds allowed", [], 5⟩ : KnowledgeRow)
        ∈ search_hive_knowledge_retrieval
            (.ok [⟨"1", none, "Policy A", "refunds allowed", [], 5⟩,
                  ⟨"2", some "u1", "Note", "prefers concise replies", [], 6⟩])
            (fun _ _ => true) "u1" "q" 5
      ∧ ∀ r ∈ search_hive_knowledge_retrieval
            (.ok [⟨"1", none, "Policy A", "refunds allowed", [], 5⟩,
                  ⟨"2", some "u1", "Note", "prefers concise replies", [], 6⟩])
            (fun _ _ => true) "u1" "q" 5,
          r.user_id = some "u1" ∨ r.user_id = none := by
  constructor
  · exact (knowledge_scoping
      [⟨"1", none, "Policy A", "refunds allowed", [], 5⟩,
       ⟨"2", some "u1", "Note", "prefers concise replies", [], 6⟩]
      (fun _ _ => true) (fun _ _ => true) (fun _ _ => 1) "u1" "q" 5).2.1
      (by decide) _ (by decide) (by decide) (by decide)
  · exact (knowledge_scoping
      [⟨"1", none, "Policy A", "refunds allowed", [], 5⟩,
       ⟨"2", some "u1", "Note", "prefers concise replies", [], 6⟩]
      (fun _ _ => true) (fun _ _ => true) (fun _ _ => 1) "u1" "q" 5).1

/-- C9, amended.  The pg-based knowledge search of `db.py` is ordered by
descending relevance score with ties broken by descending `created_at`, and
is truncated to `limit`.  The Supabase-based search of
`src/memory/retrieval.py` is truncated to `limit` but carries no ordering
clause: its rows come back in store order (see `knowledge_order_cex`). -/
theorem knowledge_order_db (table : List KnowledgeRow)
    (fuzzy : String → String → Bool) (sim : String → String → Int)
    (query : String) (user_id : Option String) (limit : Nat) :
    List.Pairwise (fun a b => knowledge_le a b = true)
        (search_hive_knowledge_db table fuzzy sim query user_id limit)
      ∧ (search_hive_knowledge_db table fuzzy sim query user_id limit).length ≤ limit := by
  unfold search_hive_knowledge_db
  by_cases hq : pyStrip query = ""
  · rw [if_pos hq]
    exact ⟨List.Pairwise.nil, by simp⟩
  · rw [if_neg hq]
    constructor
    · exact List.Pairwise.sublist (List.take_sublist _ _)
        (List.sorted_mergeSort knowledge_le_trans knowledge_le_total _)
    · exact List.length_take_le _ _

/-- C9, counterexample: the Supabase-based knowledge search applies no
ordering.  Here every returned row ties on relevance (the query computes no
score at all), yet the result is in ascending — not descending —
`created_at` order. -/
theorem knowledge_order_cex :
    search_hive_knowledge_retrieval
        (.ok [⟨"1", none, "A", "alpha", [], 1⟩, ⟨"2", none, "B", "beta", [], 2⟩])
        (fun _ _ => true) "u1" "q" 5
      = [⟨"1", none, "A", "alpha", [], 1⟩, ⟨"2", none, "B", "beta", [], 2⟩]
    ∧ ¬ List.Pairwise (fun a b : KnowledgeRow => b.created_at ≤ a.created_at)
        (search_hive_knowledge_retrieval
          (.ok [⟨"1", none, "A", "alpha", [], 1⟩, ⟨"2", none, "B", "beta", [], 2⟩])
          (fun _ _ => true) "u1" "q" 5) := by
  constructor
  · decide
  · decide

theorem strSub_refl (a : String) : StrSub a a :=
  ⟨"", "", by rw [String.empty_append, String.append_empty]⟩

theorem strSub_append_left (a b c : String) (h : StrSub a b) : StrSub a (c ++ b) := by
  rcases h with ⟨s, t, rfl⟩
  exact ⟨c ++ s, t, by simp [String.append_assoc]⟩

theorem strSub_append_right (a b c : String) (h : StrSub a b) : StrSub a (b ++ c) := by
  rcases h with ⟨s, t, rfl⟩
  exact ⟨s, t ++ c, by simp [String.append_assoc]⟩

theorem strSub_trans (a b c : String) (hab : StrSub a b) (hbc : StrSub b c) : StrSub a c := by
  rcases hbc with ⟨s, t, rfl⟩
  exact strSub_append_right _ _ _ (strSub_append_left _ _ _ hab)

theorem strSub_join_newline (l : String) :
    ∀ L : List String, l ∈ L → StrSub l (join_newline L)
  | [], h => absurd h (List.not_mem_nil l)
  | [x], h => by
    rcases List.mem_singleton.mp h with rfl
    exact strSub_refl l
  | x :: y :: L, h => by
    rcases List.mem_cons.mp h with rfl | h'
    · exact strSub_append_right _ _ _ (strSub_append_right _ _ _ (strSub_refl l))
    · show StrSub l (x ++ "\n" ++ join_newline (y :: L))
      exact strSub_append_left _ _ _ (strSub_join_newline l (y :: L) h')

theorem strSub_knowledge_line_title (r : KnowledgeRow) :
    StrSub r.title (knowledge_line r) := by
  unfold knowledge_line
  by_cases ht : r.title = ""
  · exact ⟨"- " ++ (if r.title = "" then "Entry" else r.title) ++ ": " ++ r.content, "",
      by rw [ht, String.append_empty, String.append_empty]⟩
  · rw [if_neg ht]
    exact ⟨"- ", ": " ++ r.content, by
      rw [String.append_assoc, String.append_assoc]⟩

theorem strSub_knowledge_line_content (r : KnowledgeRow) :
    StrSub r.content (knowledge_line r) :=
  ⟨"- " ++ (if r.title = "" then "Entry" else r.title) ++ ": ", "",
    by unfold knowledge_line; rw [String.append_empty]⟩

/-- C8.  For every non-empty sequence of knowledge rows, the title and the
content of every row occur verbatim as substrings of the assembled system
prompt: each row is rendered as its own `"- {title}: {content}"` line of the
appended knowledge block.  (An empty title is replaced by `"Entry"`; the
empty string is trivially a substring.) -/
theorem prompt_contains_entries (base : String) (rows : List KnowledgeRow)
    (hne : rows ≠ []) :
    ∀ r ∈ rows,
      StrSub r.title (vishnu_system_prompt base rows)
        ∧ StrSub r.content (vishnu_system_prompt base rows) := by
  intro r hr
  have hblock : StrSub (knowledge_line r) (hive_knowledge_block rows) := by
    unfold hive_knowledge_block
    rw [if_neg (by simpa using hne)]
    exact strSub_append_right _ _ _ (strSub_append_left _ _ _
      (strSub_join_newline _ _ (List.mem_map_of_mem knowledge_line hr)))
  have hprompt : StrSub (knowledge_line r) (vishnu_system_prompt base rows) :=
    strSub_append_left _ _ _ hblock
  exact ⟨strSub_trans _ _ _ (strSub_knowledge_line_title r) hprompt,
    strSub_trans _ _ _ (strSub_knowledge_line_content r) hprompt⟩

/-- C8, witness for `prompt_contains_entries` at a concrete input. -/
theorem prompt_contains_entries_witness :
    StrSub "Policy A" (vishnu_system_prompt "BASE"
        [⟨"1", none, "Policy A", "refunds allowed", [], 5⟩])
      ∧ StrSub "refunds allowed" (vishnu_system_prompt "BASE"
        [⟨"1", none, "Policy A", "refunds allowed", [], 5⟩]) :=
  prompt_contains_entries "BASE" [⟨"1", none, "Policy A", "refunds allowed", [], 5⟩]
    (by decide) ⟨"1", none, "Policy A", "refunds allowed", [], 5⟩ (by decide)

/-- Master characterisation of `invoke` once the context stage has
succeeded: the result is determined by the generation outcome on the
extended prompt and, when generation succeeds, by the guarded capture
outcome. -/
theorem invoke_of_vishnu_ok {V : Type} (c : Caps V) (uid msg : String)
    (hist : List Turn) (hc : String) (now : Nat) (r : VishnuResult)
    (hv : vishnu_process c uid msg now = .ok r) :
    invoke c uid msg hist hc now =
      match c.generate (brahma_prompt r.system_prompt hc) msg hist with
      | .error e => .error e
      | .ok g =>
        .ok ⟨g.response, uid, r.intent,
          (match c.capture uid g.full_conversation (some r.user_identity) with
            | .ok ids => ids
            | .error _ => []),
          hist ++ [⟨"user", msg⟩, ⟨"assistant", g.response⟩]⟩ := by
  unfold invoke graph_invoke vishnu_node initial_state
  dsimp only
  rw [hv]
  dsimp only
  unfold brahma_node
  dsimp only
  cases hg : c.generate (brahma_prompt r.system_prompt hc) msg hist with
  | error e => rfl
  | ok g =>
    dsimp only
    unfold shiva_node
    dsimp only
    cases c.capture uid g.full_conversation (some r.user_identity) with
    | ok ids => rfl
    | error e => rfl

theorem get_or_create_identity_error {V : Type} (c : Caps V) (uid e : String)
    (h : get_or_create_identity c uid = .error e) : c.identityGet = .error e := by
  unfold get_or_create_identity at h
  cases hg : c.identityGet with
  | error e2 =>
    rw [hg] at h
    injection h with h
    subst h
    rfl
  | ok o =>
    rw [hg] at h
    cases o <;> simp at h

theorem vishnu_process_error {V : Type} (c : Caps V) (uid msg : String)
    (now : Nat) (e : String) (h : vishnu_process c uid msg now = .error e) :
    c.identityGet = .error e
    ∨ retrieve_memories c.personal c.maxPersonal = .error e
    ∨ retrieve_memories c.hive c.maxHive = .error e := by
  unfold vishnu_process at h
  cases hid : get_or_create_identity c uid with
  | error e' =>
    rw [hid] at h
    injection h with h
    exact Or.inl (get_or_create_identity_error c uid e (h ▸ hid))
  | ok ident0 =>
    rw [hid] at h
    dsimp only at h
    cases hp : retrieve_memories c.personal c.maxPersonal with
    | error e' =>
      rw [hp] at h
      injection h with h
      subst h
      exact Or.inr (Or.inl rfl)
    | ok personal =>
      rw [hp] at h
      dsimp only at h
      cases hh : retrieve_memories c.hive c.maxHive with
      | error e' =>
        rw [hh] at h
        injection h with h
        subst h
        exact Or.inr (Or.inr rfl)
      | ok hive =>
        rw [hh] at h
        simp at h

/-- C5, amended.  An invocation fails only when the identity lookup raises,
a memory retrieval raises (which, per `retrieve_embed_failure` and
the shape of `retrieve_memories`, happens exactly when its unguarded recency
fallback raises after the primary path failed), or the generation capability
raises on the assembled prompt.  Intent detection, knowledge search and
capture failures are absorbed.  The original claim omitted the
memory-retrieval double failure (see `invoke_error_cex`). -/
theorem invoke_error_sources {V : Type} (c : Caps V) (uid msg : String)
    (hist : List Turn) (hc : String) (now : Nat) (e : String)
    (h : invoke c uid msg hist hc now = .error e) :
    c.identityGet = .error e
    ∨ retrieve_memories c.personal c.maxPersonal = .error e
    ∨ retrieve_memories c.hive c.maxHive = .error e
    ∨ (∃ sp, c.generate sp msg hist = .error e) := by
  cases hv : vishnu_process c uid msg now with
  | error e' =>
    have hinv : invoke c uid msg hist hc now = .error e' := by
      unfold invoke graph_invoke vishnu_node initial_state
      dsimp only
      rw [hv]
    rw [hinv] at h
    injection h with h
    rcases vishnu_process_error c uid msg now e (h ▸ hv) with h' | h' | h'
    · exact Or.inl h'
    · exact Or.inr (Or.inl h')
    · exact Or.inr (Or.inr (Or.inl h'))
  | ok r =>
    rw [invoke_of_vishnu_ok c uid msg hist hc now r hv] at h
    cases hg : c.generate (brahma_prompt r.system_prompt hc) msg hist with
    | error eg =>
      rw [hg] at h
      injection h with h
      exact Or.inr (Or.inr (Or.inr ⟨brahma_prompt r.system_prompt hc, h ▸ hg⟩))
    | ok g =>
      rw [hg] at h
      exact absurd h (by simp)

/-- C5, counterexample to the original claim: with the identity lookup and
the generation capability both healthy, a personal-memory retrieval whose
vector path and recency fallback both raise makes `invoke` itself raise —
memory retrieval is not always absorbed. -/
theorem invoke_error_cex :
    capsRetrFail.identityGet = .ok (some ⟨"u1", 1⟩)
    ∧ capsRetrFail.generate = (fun _ _ _ => .ok ⟨"hello", "fc"⟩)
    ∧ invoke capsRetrFail "u1" "hi" [] "" 2 = .error "memory store unavailable" :=
  ⟨rfl, rfl, rfl⟩

/-- C5, witness for `invoke_error_sources` at a concrete input. -/
theorem invoke_error_sources_witness :
    capsIdFail.identityGet = .error "identity store down"
    ∨ retrieve_memories capsIdFail.personal capsIdFail.maxPersonal
        = .error "identity store down"
    ∨ retrieve_memories capsIdFail.hive capsIdFail.maxHive = .error "identity store down"
    ∨ (∃ sp, capsIdFail.generate sp "hi" [] = .error "identity store down") :=
  invoke_error_sources capsIdFail "u1" "hi" [] "" 2 "identity store down" rfl

/-- C6.  If the generation capability raises once the context stage has
succeeded, the invocation fails with that error propagated (no fallback
reply), the outcome is independent of the capture capability — the capture
stage is never consulted, so no memory ids can be written — and the Brahma
node itself returns the bare error and no state: the history appends are
sequenced after the generation call, so the conversation history is not
mutated. -/
theorem generation_abort {V : Type} (c : Caps V) (uid msg : String)
    (hist : List Turn) (hc : String) (now : Nat) (r : VishnuResult) (e : String)
    (hv : vishnu_process c uid msg now = .ok r)
    (hg : c.generate (brahma_prompt r.system_prompt hc) msg hist = .error e) :
    invoke c uid msg hist hc now = .error e
    ∧ (∀ cap₁ cap₂ : String → String → Option UserIdentity → Except String (List String),
        invoke { c with capture := cap₁ } uid msg hist hc now
          = invoke { c with capture := cap₂ } uid msg hist hc now)
    ∧ (∀ s : AgentState, s.system_prompt = r.system_prompt → s.hive_context = hc →
        s.user_message = msg → s.conversation_history = hist →
        brahma_node c s = .error e) := by
  have master :
      ∀ cap, invoke { c with capture := cap } uid msg hist hc now = .error e := by
    intro cap
    have hv' : vishnu_process { c with capture := cap } uid msg now = .ok r := hv
    rw [invoke_of_vishnu_ok { c with capture := cap } uid msg hist hc now r hv']
    have hg' :
        ({ c with capture := cap } : Caps V).generate
            (brahma_prompt r.system_prompt hc) msg hist = .error e := hg
    rw [hg']
  refine ⟨master c.capture, fun cap₁ cap₂ => by rw [master cap₁, master cap₂], ?_⟩
  intro s h1 h2 h3 h4
  unfold brahma_node
  rw [h1, h2, h3, h4, hg]

/-- C6, witness for `generation_abort` at a concrete input. -/
theorem generation_abort_witness :
    invoke capsGenFail "u1" "hi" [] "" 2 = .error "generation unavailable"
    ∧ invoke { capsGenFail with capture := fun _ _ _ => .ok ["w"] } "u1" "hi" [] "" 2
        = invoke { capsGenFail with capture := fun _ _ _ => .error "down" } "u1" "hi" [] "" 2 := by
  have h := generation_abort capsGenFail "u1" "hi" [] "" 2 rBase
    "generation unavailable" rfl rfl
  exact ⟨h.1, h.2.1 _ _⟩

/-- C7.  Any exception inside the capture stage is absorbed: once the
context and generation stages have succeeded, the invocation still succeeds,
`memory_ids` is the empty list, and the already-generated response is
returned unchanged. -/
theorem capture_absorbed {V : Type} (c : Caps V) (uid msg : String)
    (hist : List Turn) (hc : String) (now : Nat) (r : VishnuResult) (g : GenOut)
    (e : String)
    (hv : vishnu_process c uid msg now = .ok r)
    (hg : c.generate (brahma_prompt r.system_prompt hc) msg hist = .ok g)
    (hcap : c.capture uid g.full_conversation (some r.user_identity) = .error e) :
    invoke c uid msg hist hc now
      = .ok ⟨g.response, uid, r.intent, [],
          hist ++ [⟨"user", msg⟩, ⟨"assistant", g.response⟩]⟩ := by
  rw [invoke_of_vishnu_ok c uid msg hist hc now r hv, hg]
  dsimp only
  rw [hcap]

/-- C7, witness for `capture_absorbed` at a concrete input. -/
theorem capture_absorbed_witness :
    invoke capsCapFail "u1" "hi" [] "" 2
      = .ok ⟨"hello", "u1", none, [], [⟨"user", "hi"⟩, ⟨"assistant", "hello"⟩]⟩ :=
  capture_absorbed capsCapFail "u1" "hi" [] "" 2 rBase ⟨"hello", "fc"⟩
    "memory write failed" rfl rfl rfl

/-- C10.  Once the workflow returns a result, `run_meera` inserts the reply
back into the knowledge store iff the response is non-empty after stripping
whitespace and the insert capability succeeds; a blank response yields no
insert; an insert failure leaves the store unchanged; and in every such case
— whatever the interaction-persistence outcome — the result returned to the
caller is the workflow result, unchanged. -/
theorem run_meera_insert_iff (table : List KnowledgeRow)
    (fuzzy : String → String → Bool) (sim : String → String → Int)
    (invokeF : String → Except String InvokeResult)
    (saveOutcome : Except String Unit) (insertOutcome : Except String String)
    (ilog : List Interaction) (uid msg : String) (now : Nat) (r : InvokeResult)
    (hi : invokeF (format_hive_context
        (search_hive_knowledge_db table fuzzy sim msg (some uid) 5)) = .ok r) :
    (∀ id, insertOutcome = .ok id → pyStrip r.response ≠ "" →
      ∃ il, run_meera table fuzzy sim invokeF saveOutcome insertOutcome ilog uid msg now
        = .ok (r, table ++ [meera_reply_row id uid msg r now], il))
    ∧ (pyStrip r.response = "" →
      ∃ il, run_meera table fuzzy sim invokeF saveOutcome insertOutcome ilog uid msg now
        = .ok (r, table, il))
    ∧ (∀ e, insertOutcome = .error e →
      ∃ il, run_meera table fuzzy sim invokeF saveOutcome insertOutcome ilog uid msg now
        = .ok (r, table, il)) := by
  refine ⟨?_, ?_, ?_⟩
  · intro id hins hans
    have hne : r.response ≠ "" := fun h0 => hans (by rw [h0]; rfl)
    refine ⟨(match saveOutcome with
      | .ok _ => ilog ++ [⟨uid, msg, r.response, r.intent, r.memory_ids⟩]
      | .error _ => ilog), ?_⟩
    unfold run_meera
    dsimp only
    rw [hi]
    dsimp only
    rw [hins, if_pos ⟨hne, hans⟩]
  · intro hblank
    refine ⟨(match saveOutcome with
      | .ok _ => ilog ++ [⟨uid, msg, r.response, r.intent, r.memory_ids⟩]
      | .error _ => ilog), ?_⟩
    unfold run_meera
    dsimp only
    rw [hi]
    dsimp only
    rw [if_neg (fun hcontra => hcontra.2 hblank)]
  · intro e hins
    refine ⟨(match saveOutcome with
      | .ok _ => ilog ++ [⟨uid, msg, r.response, r.intent, r.memory_ids⟩]
      | .error _ => ilog), ?_⟩
    unfold run_meera
    dsimp only
    rw [hi]
    dsimp only
    rw [hins]
    by_cases hcond : r.response ≠ "" ∧ pyStrip r.response ≠ ""
    · rw [if_pos hcond]
    · rw [if_neg hcond]

/-- C10, witness for `run_meera_insert_iff` at a concrete input: the reply
`"hello"` is non-blank and the insert succeeds, so the knowledge table grows
by exactly the reply row, even though interaction persistence fails. -/
theorem run_meera_insert_iff_witness :
    ∃ il,
      run_meera [] (fun _ _ => true) (fun _ _ => 1)
          (fun _ => .ok ⟨"hello", "u1", none, ["m1"], []⟩)
          (.error "supabase down") (.ok "k1") [] "u1" "hi" 3
        = .ok (⟨"hello", "u1", none, ["m1"], []⟩,
            [] ++ [meera_reply_row "k1" "u1" "hi" ⟨"hello", "u1", none, ["m1"], []⟩ 3],
            il) :=
  (run_meera_insert_iff [] (fun _ _ => true) (fun _ _ => 1)
      (fun _ => .ok ⟨"hello", "u1", none, ["m1"], []⟩)
      (.error "supabase down") (.ok "k1") [] "u1" "hi" 3
      ⟨"hello", "u1", none, ["m1"], []⟩ rfl).1
    "k1" rfl (by decide)

end MeeraHive
